import Mathlib

/-!
# dgraph-backup-cli: export and restore pipelines of `main.go`

A shallow embedding of `requestExport`, `zipIt`, `shipIt`, `cleanUp`, `Export`,
`DownloadFile`, `getFiles` and `Restore`.

Modelling conventions.

* A Go call either returns a value or ends the process. `Outcome` records which:
  `returned v`, `exited code` (`os.Exit(code)`; `log.Fatal` is `os.Exit(1)`),
  `panicked` (`log.Panic` or a Go runtime panic), and `outOfFuel` for a loop
  that was cut off by the fuel of the model.
* Everything a function reads from outside the program (the HTTP response, the
  results of `os.Stat`, of the archiver, of the S3 client, the clock, the
  directory walk) is an explicit argument.
* Everything a function does to the outside (console output, sleeping, calls
  of the archiver, of S3, of `os.Remove`) is appended to a list of `Event`s.
* Go strings are modelled by Lean strings; `strings.Contains` and
  `strings.Split` are modelled on the list of characters.
* The file system is a set of nodes of a tree; which node a path name denotes
  is the name resolution of the operating system, an argument as well.
-/

namespace DgraphBackup

/-! ## Go string helpers -/

/-- Go `strings.Contains` on character lists: `sub` occurs in `s` as a contiguous block. -/
def containsChars (sub : List Char) : List Char → Bool
  | [] => sub.isPrefixOf []
  | c :: cs => sub.isPrefixOf (c :: cs) || containsChars sub cs

/-- Go `strings.Contains(s, substr)`. -/
def stringsContains (s substr : String) : Bool :=
  containsChars substr.data s.data

/-- Go `strings.Split` with a one-character separator, on character lists.
The result always has at least one piece. -/
def splitChars (sep : Char) : List Char → List (List Char)
  | [] => [[]]
  | c :: cs =>
    if c = sep then [] :: splitChars sep cs
    else
      match splitChars sep cs with
      | [] => [[c]]
      | piece :: rest => (c :: piece) :: rest

/-- Go `strings.Split(s, ".")`. -/
def stringsSplitDot (s : String) : List String :=
  (splitChars '.' s.data).map String.mk

/-! ## Outcomes -/

/-- How a Go call ends. -/
inductive Outcome (α : Type) where
  | returned (value : α)
  | exited (code : Nat)
  | panicked
  | outOfFuel
  deriving DecidableEq, Repr

/-- The process was ended abnormally: a non-zero exit status or a panic. -/
def Outcome.isFailure {α : Type} : Outcome α → Bool
  | .returned _ => false
  | .exited code => code != 0
  | .panicked => true
  | .outOfFuel => false

/-! ## Configuration: the values of `c.String(...)` -/

/-- The flag values read through `c.String`. -/
structure Config where
  format : String
  awsBucket : String
  awsRegion : String
  dgraphHost : String
  filePrefix : String
  awsKey : String
  awsSecret : String
  exportPath : String
  hostName : String
  dgraphAlphaHost : String
  dgraphAlphaPort : String
  dgraphZeroHost : String
  dgraphZeroPort : String
  deriving DecidableEq, Repr

/-! ## Observable actions -/

/-- What a run does to the outside world, in order. -/
inductive Event where
  | printed (text : String)
  | logged (text : String)
  | httpGet (uri : String)
  | stat (path : String) (notExist : Bool)
  | slept (delay : Nat)
  | archive (sources : List String) (fileName : String)
  | upload (bucket key : String)
  | osRemove (path : String) (err : Option String)
  | osRemoveAll (path : String) (err : Option String)
  | download (bucket key : String)
  | unarchive (source destination : String)
  | execCommand (args : List String)
  | cmdStart
  | stdinWrite (text : String)
  | cmdWait
  deriving DecidableEq, Repr

/-! ## requestExport -/

/-- The part of an `http.Response` that `requestExport` reads: the status code
and what `ioutil.ReadAll(resp.Body)` gives (`none` when reading fails). -/
structure Response where
  statusCode : Nat
  body : Option String
  deriving DecidableEq, Repr

/-- Go `http.StatusOK`. -/
def StatusOK : Nat := 200

/-- The function `requestExport` (main.go 50-80). `resp` is the result of `client.Do`:
`none` when the request could not be performed. -/
def requestExport (c : Config) (resp : Option Response) : Outcome Bool × List Event :=
  let requestUri := c.dgraphHost ++ "/admin/export?format=" ++ c.format
  let tr := [Event.printed ("Requesting Export from " ++ requestUri), Event.httpGet requestUri]
  match resp with
  | none => (.panicked, tr ++ [Event.logged "Cannot access to dgraph server"])
  | some r =>
    if StatusOK = r.statusCode then
      match r.body with
      | none => (.exited 1, tr ++ [Event.logged "read error"])
      | some bodyString =>
        let isSuccess := stringsContains bodyString "Success"
        if isSuccess != true then
          (.exited 1, tr ++ [Event.logged ("Export Failed" ++ bodyString)])
        else
          (.returned true, tr ++ [Event.printed "Data export successful"])
    else (.returned false, tr)

/-! ## zipIt -/

/-- The function `zipIt` (main.go 82-93). `now` is `time.Now().Format(time.RFC3339)`,
`archiveErr` the error returned by `z.Archive` (`none` for `nil`). -/
def zipIt (c : Config) (now : String) (archiveErr : Option String) :
    Outcome (String × Option String) × List Event :=
  let fileName := "./" ++ c.filePrefix ++ "-" ++ c.hostName ++ "-" ++ now ++ ".zip"
  let tr := [Event.archive [c.exportPath] fileName]
  match archiveErr with
  | some err => (.exited 1, tr ++ [Event.logged ("err Zipping" ++ err)])
  | none => (.returned (fileName, none), tr)

/-! ## shipIt -/

/-- What the S3 client and `os.Open` answer during `shipIt`. -/
structure Storage where
  sessionErr : Option String
  openErr : Option String
  uploadResult : Except String String

/-- The function `shipIt` (main.go 95-122). It returns the Go error (`none` for `nil`);
`session.Must` panics when the session cannot be created. -/
def shipIt (c : Config) (s : Storage) (filename : String) :
    Outcome (Option String) × List Event :=
  match s.sessionErr with
  | some _ => (.panicked, [])
  | none =>
    match s.openErr with
    | some err => (.returned (some ("failed to open file \"" ++ filename ++ "\", " ++ err)), [])
    | none =>
      match s.uploadResult with
      | .error err =>
        (.returned (some ("failed to upload file, " ++ err)), [Event.upload c.awsBucket filename])
      | .ok location =>
        (.returned none,
          [Event.upload c.awsBucket filename, Event.printed ("[DONE] Uploaded to " ++ location)])

/-! ## The file system seen by cleanUp -/

/-- A node of the file-system tree: the names on the way from the root to it. -/
abbrev Node := List String

/-- A file-system state: the nodes that exist, and the nodes the operating
system refuses to unlink. -/
structure FileSystem where
  entries : List Node
  locked : List Node
  deriving DecidableEq, Repr

/-- The node a path name denotes. `resolve` is the name resolution of the
operating system (working directory, ".", "..", repeated and trailing
separators, links on the way; the last component is not followed, as for
`unlink` and `rmdir`); the empty name denotes nothing. -/
def lookup (resolve : String → Option Node) (p : String) : Option Node :=
  if p = "" then none else resolve p

/-- The path name `p` denotes a node that exists. -/
def FileSystem.pathExists (resolve : String → Option Node) (fs : FileSystem) (p : String) : Bool :=
  match lookup resolve p with
  | none => false
  | some n => fs.entries.contains n

/-- The file system after a file was created under the name `p`. -/
def FileSystem.create (resolve : String → Option Node) (fs : FileSystem) (p : String) :
    FileSystem :=
  match lookup resolve p with
  | none => fs
  | some n => { fs with entries := n :: fs.entries }

/-- The node `n` is `root` itself or lies in the tree below `root`. -/
def isUnder (root n : Node) : Bool :=
  root.isPrefixOf n

/-- Go `endsWithDot` of package os: the path is "." or ends in a separator and a dot. -/
def endsWithDot (path : String) : Bool :=
  path == "." || ['/', '.'].isSuffixOf path.data

/-- Go `os.Remove(name)`: removes one file or one empty directory. Returns the
error (`none` for `nil`) and the new state. -/
def osRemove (resolve : String → Option Node) (fs : FileSystem) (name : String) :
    Option String × FileSystem :=
  if endsWithDot name then (some "invalid argument", fs)
  else
    match lookup resolve name with
    | none => (some "no such file or directory", fs)
    | some n =>
      if !fs.entries.contains n then (some "no such file or directory", fs)
      else if fs.locked.contains n then (some "operation not permitted", fs)
      else if fs.entries.any (fun m => m != n && isUnder n m) then
        (some "directory not empty", fs)
      else (none, { fs with entries := fs.entries.filter (fun m => m != n) })

/-- Go `os.RemoveAll(path)`. The empty path is `nil` and does nothing; a path
that ends with a dot is refused (EINVAL) and nothing is removed; a path that
denotes nothing is `nil`. Otherwise the node and everything below it is
removed, except the nodes the system refuses to unlink and the directories
above them, which stay and give an error. -/
def osRemoveAll (resolve : String → Option Node) (fs : FileSystem) (path : String) :
    Option String × FileSystem :=
  if path = "" then (none, fs)
  else if endsWithDot path then (some "invalid argument", fs)
  else
    match lookup resolve path with
    | none => (none, fs)
    | some root =>
      let stays : Node → Bool :=
        fun n => fs.entries.any (fun m => isUnder n m && fs.locked.contains m)
      let fs1 : FileSystem :=
        { fs with entries := fs.entries.filter (fun n => !(isUnder root n) || stays n) }
      if fs.entries.any (fun n => isUnder root n && fs.locked.contains n) then
        (some "operation not permitted", fs1)
      else (none, fs1)

/-! ## cleanUp -/

/-- The function `cleanUp` (main.go 124-133). -/
def cleanUp (resolve : String → Option Node) (c : Config) (filePath : String) (fs : FileSystem) :
    List Event × FileSystem :=
  let (err, fs1) := osRemove resolve fs filePath
  let tr1 :=
    match err with
    | some e => [Event.osRemove filePath err, Event.printed ("remove error. " ++ e)]
    | none => [Event.osRemove filePath err]
  let (err2, fs2) := osRemoveAll resolve fs1 c.exportPath
  let tr2 :=
    match err2 with
    | some e => [Event.osRemoveAll c.exportPath err2, Event.printed ("remove all error. " ++ e)]
    | none => [Event.osRemoveAll c.exportPath err2]
  (tr1 ++ tr2, fs2)

/-! ## Export -/

/-- The counter of `backoff.Backoff` (github.com/jpillora/backoff): `Duration()`
increments the attempt count that `Attempt()` reads, `Reset()` sets it to zero. -/
structure Backoff where
  attempt : Nat
  max : Nat
  deriving DecidableEq, Repr

/-- The method `b.Duration()`: the delay of the current attempt, and the counter incremented.
`forAttempt` is the delay the library computes for an attempt index. -/
def Backoff.Duration (b : Backoff) (forAttempt : Nat → Nat) : Nat × Backoff :=
  (forAttempt b.attempt, { b with attempt := b.attempt + 1 })

/-- The method `b.Attempt()`. -/
def Backoff.Attempt (b : Backoff) : Nat := b.attempt

/-- The method `b.Reset()`. -/
def Backoff.Reset (b : Backoff) : Backoff := { b with attempt := 0 }

/-- Go `5 * time.Minute`, in nanoseconds. -/
def fiveMinutes : Nat := 5 * 60 * 1000000000

/-- Everything `Export` reads from outside the program. -/
structure World where
  /-- Result of `client.Do`. -/
  response : Option Response
  /-- Value of `os.IsNotExist(err)` for the `i`-th `os.Stat(ExportPath)`. -/
  notExist : Nat → Bool
  /-- Delay of the backoff library for an attempt index. -/
  forAttempt : Nat → Nat
  /-- Value of `time.Now().Format(time.RFC3339)` when `zipIt` runs. -/
  now : String
  /-- Error of `z.Archive`. -/
  archiveErr : Option String
  /-- Answers of the S3 client. -/
  storage : Storage
  /-- Name resolution of the operating system, see `lookup`. -/
  resolve : String → Option Node
  /-- File-system state when the landing directory is seen. -/
  fs : FileSystem

/-- The state a run ends in. -/
structure Run where
  outcome : Outcome Unit
  trace : List Event
  fs : FileSystem
  deriving DecidableEq, Repr

/-- Lines 153-161 of `Export`: `b.Reset()`, `zipIt`, `shipIt`, the report of an
upload error, `cleanUp`, the report of success. A successful `z.Archive`
creates the archive file. -/
def packageShipClean (c : Config) (w : World) (b : Backoff) (tr : List Event) : Run :=
  let _b := b.Reset
  match zipIt c w.now w.archiveErr with
  | (.returned (filePath, _), tz) =>
    let fs1 : FileSystem := w.fs.create w.resolve filePath
    match shipIt c w.storage filePath with
    | (.returned err, ts) =>
      let tf :=
        match err with
        | some e => [Event.printed ("Failed to upload" ++ e)]
        | none => []
      let (tc, fs2) := cleanUp w.resolve c filePath fs1
      { outcome := .returned (),
        trace := tr ++ tz ++ ts ++ tf ++ tc ++ [Event.printed "SUCCESS"],
        fs := fs2 }
    | (.exited code, ts) => { outcome := .exited code, trace := tr ++ tz ++ ts, fs := fs1 }
    | (.panicked, ts) => { outcome := .panicked, trace := tr ++ tz ++ ts, fs := fs1 }
    | (.outOfFuel, ts) => { outcome := .outOfFuel, trace := tr ++ tz ++ ts, fs := fs1 }
  | (.exited code, tz) => { outcome := .exited code, trace := tr ++ tz, fs := w.fs }
  | (.panicked, tz) => { outcome := .panicked, trace := tr ++ tz, fs := w.fs }
  | (.outOfFuel, tz) => { outcome := .outOfFuel, trace := tr ++ tz, fs := w.fs }

/-- The `for` loop of `Export` (main.go 141-162). `fuel` bounds the number of
iterations the model follows; `i` counts the `os.Stat` calls made so far. -/
def waitLoop (c : Config) (w : World) : Nat → Backoff → Nat → List Event → Run
  | 0, _, _, tr => { outcome := .outOfFuel, trace := tr, fs := w.fs }
  | fuel + 1, b, i, tr =>
    let tr1 := tr ++ [Event.stat c.exportPath (w.notExist i)]
    if w.notExist i then
      let (d, b1) := b.Duration w.forAttempt
      let tr2 := tr1 ++ [Event.logged "Export is not ready yet, retrying in  ", Event.slept d]
      if b1.Attempt = 1 then
        { outcome := .exited 0, trace := tr2 ++ [Event.logged "NO SUCCESS  after 10 try"],
          fs := w.fs }
      else waitLoop c w fuel b1 (i + 1) tr2
    else packageShipClean c w b tr1

/-- The function `Export` (main.go 135-164). -/
def Export (c : Config) (w : World) (fuel : Nat) : Run :=
  match requestExport c w.response with
  | (.returned success, tr) =>
    if success then waitLoop c w fuel { attempt := 0, max := fiveMinutes } 0 tr
    else { outcome := .returned (), trace := tr, fs := w.fs }
  | (.exited code, tr) => { outcome := .exited code, trace := tr, fs := w.fs }
  | (.panicked, tr) => { outcome := .panicked, trace := tr, fs := w.fs }
  | (.outOfFuel, tr) => { outcome := .outOfFuel, trace := tr, fs := w.fs }

/-- Number of `os.Stat` calls in a trace that found the path missing. -/
def failedChecks (tr : List Event) : Nat :=
  tr.countP (fun e => match e with
    | .stat _ true => true
    | _ => false)

/-- The archiver was called in this trace: the run reached packaging. -/
def reachedPackaging (tr : List Event) : Bool :=
  tr.any (fun e => match e with
    | .archive _ _ => true
    | _ => false)

/-! ## DownloadFile, getFiles, Restore -/

/-- What `DownloadFile` reads from outside: the errors of `os.Create`, of
`downloader.Download` and of `archiver.Unarchive` (`none` for `nil`). -/
structure Retrieval where
  createErr : Option String
  downloadErr : Option String
  unarchiveErr : Option String

/-- The function `DownloadFile` (main.go 208-226). -/
def DownloadFile (c : Config) (r : Retrieval) (fileName : String) :
    Outcome String × List Event :=
  match r.createErr with
  | some _ => (.exited 1, [Event.logged "Unable to open file %q, %v"])
  | none =>
    match r.downloadErr with
    | some _ => (.exited 1, [Event.logged "Unable to download item %q, %v"])
    | none =>
      let tr := [Event.download c.awsBucket fileName, Event.printed ("Downloaded " ++ fileName),
        Event.unarchive ("./" ++ fileName) "data"]
      let _err := r.unarchiveErr
      (.returned "./data/exports/", tr)

/-- Go slice indexing `s[i]` with an `int` index: `none` is the runtime panic
for an index out of range. -/
def goIndex {α : Type} (s : List α) (i : Int) : Option α :=
  if i < 0 then none else s.get? i.toNat

/-- The walk function of `getFiles` (main.go 229-240) for one path: the two
lists after the path, or `none` when indexing panics. -/
def classify (acc : List String × List String) (path : String) :
    Option (List String × List String) :=
  if stringsContains path "gz" then
    let filePathPieces := stringsSplitDot path
    let filePrefix : Int := (filePathPieces.length : Int) - 2
    match goIndex filePathPieces filePrefix with
    | none => none
    | some piece =>
      if piece = "rdf" then some (acc.1 ++ [path], acc.2)
      else if piece = "schema" then some (acc.1, acc.2 ++ [path])
      else some acc
  else some acc

/-- The walk of `getFiles` over the visited paths, in walk order. -/
def walkFiles : List String × List String → List String → Option (List String × List String)
  | acc, [] => some acc
  | acc, path :: rest =>
    match classify acc path with
    | none => none
    | some acc1 => walkFiles acc1 rest

/-- The function `getFiles` (main.go 228-246); `walked` are the paths `filepath.Walk`
visits. The walk function always returns `nil`, so `Walk` returns `nil`. -/
def getFiles (walked : List String) : Outcome (List String × List String) :=
  match walkFiles ([], []) walked with
  | none => .panicked
  | some (rdfFiles, schemaFiles) => .returned (rdfFiles, schemaFiles)

/-- Everything `Restore` reads from outside the program. -/
structure RestoreWorld where
  /-- Error of `session.NewSession`. -/
  sessionErr : Option String
  /-- Result of `getBackUpFile`: the chosen key, `none` when indexing the
  regular-expression match panics. -/
  backUpFile : Option String
  /-- Answers during `DownloadFile`. -/
  retrieval : Retrieval
  /-- Paths visited by `filepath.Walk` from the path `DownloadFile` returns. -/
  walked : List String
  /-- Error of `cmd.StdinPipe`. -/
  stdinErr : Option String
  /-- Error of `cmd.Start`. -/
  startErr : Option String

/-- The outcome and the trace of a restore run. -/
structure RestoreRun where
  outcome : Outcome Unit
  trace : List Event
  deriving DecidableEq, Repr

/-- Lines 258-277 of `Restore`, after the download. -/
def restoreFrom (c : Config) (w : RestoreWorld) (filePath : String) (tr : List Event) :
    RestoreRun :=
  let alphaAddr := c.dgraphAlphaHost ++ ":" ++ c.dgraphAlphaPort
  let zeroAddr := c.dgraphZeroHost ++ ":" ++ c.dgraphZeroPort
  let tr1 := tr ++ [Event.logged (filePath ++ " " ++ alphaAddr ++ " " ++ zeroAddr)]
  match getFiles w.walked with
  | .returned (_, schemaFiles) =>
    let tr2 := tr1 ++ [Event.logged (" ".intercalate schemaFiles)]
    match goIndex schemaFiles 0 with
    | none => { outcome := .panicked, trace := tr2 }
    | some schema =>
      let args := ["dgraph", "live", "-f", filePath, "-a", alphaAddr, "-z", zeroAddr, "-s", schema]
      let tr3 := tr2 ++ [Event.logged ("COMMAND " ++ " ".intercalate args), Event.execCommand args]
      match w.stdinErr with
      | some e =>
        -- stdin is nil, so evaluating the deferred stdin.Close panics
        { outcome := .panicked, trace := tr3 ++ [Event.printed e] }
      | none =>
        let ts :=
          match w.startErr with
          | some e => [Event.printed "START", Event.cmdStart, Event.printed ("An error occured: " ++ e)]
          | none => [Event.printed "START", Event.cmdStart]
        { outcome := .returned (),
          trace := tr3 ++ ts ++ [Event.stdinWrite "4\n", Event.cmdWait, Event.printed "END"] }
  | .exited code => { outcome := .exited code, trace := tr1 }
  | .panicked => { outcome := .panicked, trace := tr1 }
  | .outOfFuel => { outcome := .outOfFuel, trace := tr1 }

/-- The function `Restore` (main.go 248-277). -/
def Restore (c : Config) (w : RestoreWorld) : RestoreRun :=
  match w.sessionErr with
  | some _ => { outcome := .panicked, trace := [] }
  | none =>
    match w.backUpFile with
    | some file =>
      match DownloadFile c w.retrieval file with
      | (.returned filePath, td) => restoreFrom c w filePath td
      | (.exited code, td) => { outcome := .exited code, trace := td }
      | (.panicked, td) => { outcome := .panicked, trace := td }
      | (.outOfFuel, td) => { outcome := .outOfFuel, trace := td }
    | none => { outcome := .panicked, trace := [] }

/-! ## Auxiliary notions used in the statements -/

/-- The name `zipIt` gives the archive. -/
def archiveName (c : Config) (now : String) : String :=
  "./" ++ c.filePrefix ++ "-" ++ c.hostName ++ "-" ++ now ++ ".zip"

/-- The report `Export` prints for the error `shipIt` returned. -/
def uploadReport : Option String → List Event
  | some e => [Event.printed ("Failed to upload" ++ e)]
  | none => []

/-- The second-to-last dot-delimited piece of a path, `none` when the path has no dot. -/
def secondToLast (path : String) : Option String :=
  goIndex (stringsSplitDot path) ((stringsSplitDot path).length - 2)

/-- The path contains "gz" and its second-to-last piece is `kind`. -/
def hasKind (kind : String) (path : String) : Bool :=
  stringsContains path "gz" && secondToLast path == some kind

/-- The trace contains neither the construction nor the start of the loader command. -/
def noLoaderCommand (tr : List Event) : Bool :=
  tr.all (fun e => match e with
    | .execCommand _ => false
    | .cmdStart => false
    | _ => true)

/-- A restore run in which the download works and the walk finds one data file
and no schema file. -/
def sampleRestoreWorld : RestoreWorld :=
  { sessionErr := none, backUpFile := some "backup.zip",
    retrieval := { createErr := none, downloadErr := none, unarchiveErr := none },
    walked := ["data/exports/g01.rdf.gz"], stdinErr := none, startErr := none }

/-! ## Sample inputs -/

/-- The default flag values of `main`, with a host name and credentials. -/
def sampleConfig : Config :=
  { format := "json", awsBucket := "dgraph-backup", awsRegion := "ap-northeast-2",
    dgraphHost := "http://localhost:8080", filePrefix := "dgraph-backup",
    awsKey := "key", awsSecret := "secret", exportPath := "./export",
    hostName := "alpha0", dgraphAlphaHost := "localhost", dgraphAlphaPort := "9080",
    dgraphZeroHost := "localhost", dgraphZeroPort := "5080" }

/-- A file system holding an export tree; the working directory is the root. -/
def sampleFS : FileSystem :=
  { entries := [["export"], ["export", "g01.rdf.gz"], ["export", "g01.schema.gz"], ["notes.txt"]],
    locked := [] }

/-- One step of name resolution: an empty piece (a repeated or trailing
separator) changes nothing, and only a directory can be stepped from. -/
def resolveStep (dirs : List Node) (cur : Option Node) (piece : String) : Option Node :=
  match cur with
  | none => none
  | some n =>
    if piece = "" then some n
    else if n != [] && !dirs.contains n then none
    else if piece = "." then some n
    else if piece = ".." then some n.dropLast
    else some (n ++ [piece])

/-- Name resolution in a tree without links whose directories are `dirs`,
from the root as working directory. -/
def resolveIn (dirs : List Node) (p : String) : Option Node :=
  ((splitChars '/' p.data).map String.mk).foldl (resolveStep dirs) (some [])

/-- A world in which the export is acknowledged and everything after it works;
`notExist` tells which `os.Stat` calls miss the landing directory. -/
def sampleWorld (notExist : Nat → Bool) (uploadResult : Except String String) : World :=
  { response := some { statusCode := 200, body := some "Export Success" },
    notExist := notExist,
    forAttempt := fun n => min (100000000 * 2 ^ n) fiveMinutes,
    now := "2020-01-02T03:04:05Z",
    archiveErr := none,
    storage := { sessionErr := none, openErr := none, uploadResult := uploadResult },
    resolve := resolveIn [["export"]],
    fs := sampleFS }


/-! ## Facts about the string helpers -/

/-- The search of `containsChars` finds exactly the contiguous occurrences. -/
theorem containsChars_iff (sub s : List Char) :
    containsChars sub s = true ↔ ∃ pre post, s = pre ++ sub ++ post := by
  have key : containsChars sub s = true ↔ sub <:+: s := by
    induction s with
    | nil =>
      simp [containsChars]
    | cons a t ih =>
      simp only [containsChars, Bool.or_eq_true, ih, List.infix_cons_iff,
        List.isPrefixOf_iff_prefix]
  rw [key]
  constructor
  · rintro ⟨pre, post, h⟩
    exact ⟨pre, post, h.symm⟩
  · rintro ⟨pre, post, h⟩
    exact ⟨pre, post, h.symm⟩

/-! ## C1: requestExport -/

/-- C1, as stated, fails on the code. A 404 response whose body is the marker
makes `requestExport` return false although the body contains "Success"; and a
200 response with the body "success" makes it end the process with status 1
(the `log.Fatal` before the `return false`) instead of returning false. -/
theorem requestExport_not_iff_body_marker :
    stringsContains "Success" "Success" = true ∧
    (requestExport sampleConfig (some { statusCode := 404, body := some "Success" })).1
      = Outcome.returned false ∧
    stringsContains "success" "Success" = false ∧
    (requestExport sampleConfig (some { statusCode := 200, body := some "success" })).1
      = Outcome.exited 1 := by
  decide

/-- C1, amended: for every HTTP response, `requestExport` returns true if and
only if the status is 200 and the body, read without error, contains the exact
text "Success" as a contiguous block; and for every response whose status is
not 200 it returns false, whatever the body. -/
theorem requestExport_true_iff (c : Config) (r : Response) :
    ((requestExport c (some r)).1 = Outcome.returned true ↔
      r.statusCode = 200 ∧
        ∃ b, r.body = some b ∧ ∃ pre post, b.data = pre ++ "Success".data ++ post) ∧
    (r.statusCode ≠ 200 → (requestExport c (some r)).1 = Outcome.returned false) := by
  obtain ⟨code, body⟩ := r
  by_cases hc : code = 200
  · subst hc
    refine ⟨?_, fun h => absurd rfl h⟩
    cases body with
    | none => simp [requestExport, StatusOK]
    | some b =>
      by_cases hb : stringsContains b "Success" = true
      · have hb2 := (containsChars_iff _ _).1 hb
        simp [requestExport, StatusOK, hb]
        simpa using hb2
      · have hb2 : ¬ ∃ pre post, b.data = pre ++ "Success".data ++ post :=
          fun h => hb ((containsChars_iff _ _).2 h)
        simp only [Bool.not_eq_true] at hb
        simp [requestExport, StatusOK, hb]
        simpa using hb2
  · have hc2 : ¬ (200 = code) := fun h => hc h.symm
    simp [requestExport, StatusOK, hc, hc2]

/-- C1, amended, at a 200 response with the body "Export Success" and at a 500
response with the same body. -/
theorem requestExport_true_iff_witness :
    (requestExport sampleConfig
        (some { statusCode := 200, body := some "Export Success" })).1 = Outcome.returned true ∧
    (requestExport sampleConfig
        (some { statusCode := 500, body := some "Export Success" })).1 = Outcome.returned false :=
  ⟨(requestExport_true_iff sampleConfig { statusCode := 200, body := some "Export Success" }).1.2
      ⟨rfl, "Export Success", rfl, "Export ".data, [], rfl⟩,
   (requestExport_true_iff sampleConfig { statusCode := 500, body := some "Export Success" }).2
      (by decide)⟩

/-! ## C5: the archive name -/

/-- C5, as stated, fails on the code: for prefix "p", host "h" and timestamp
"t" the name produced by `zipIt` is "./p-h-t.zip", not "p-h-t.zip". -/
theorem zipIt_name_not_bare :
    (zipIt { sampleConfig with filePrefix := "p", hostName := "h" } "t" none).1
      ≠ Outcome.returned ("p" ++ "-" ++ "h" ++ "-" ++ "t" ++ ".zip", none) := by
  decide

/-- C5, amended: for every prefix, host identifier and timestamp text, the
archive name `zipIt` hands to the archiver, and returns when archiving
succeeds, is exactly "./" followed by prefix, "-", host, "-", timestamp, ".zip". -/
theorem zipIt_name (c : Config) (now : String) (archiveErr : Option String) :
    (zipIt c now none).1
      = Outcome.returned ("./" ++ c.filePrefix ++ "-" ++ c.hostName ++ "-" ++ now ++ ".zip", none) ∧
    (zipIt c now archiveErr).2.head?
      = some (Event.archive [c.exportPath]
          ("./" ++ c.filePrefix ++ "-" ++ c.hostName ++ "-" ++ now ++ ".zip")) := by
  refine ⟨rfl, ?_⟩
  cases archiveErr <;> rfl

/-! ## The wait loop of Export: C2, C4, C10 -/

/-- Counting failed checks distributes over concatenation. -/
theorem failedChecks_append (a b : List Event) :
    failedChecks (a ++ b) = failedChecks a + failedChecks b := by
  simp [failedChecks, List.countP_append]

/-- The function `requestExport` makes no `os.Stat` call. -/
theorem requestExport_failedChecks (c : Config) (resp : Option Response) :
    failedChecks (requestExport c resp).2 = 0 := by
  unfold requestExport
  cases resp with
  | none => simp [failedChecks]
  | some r =>
    simp only
    split
    · cases r.body with
      | none => simp [failedChecks]
      | some b =>
        simp only
        split <;> simp [failedChecks]
    · simp [failedChecks]

/-- The function `zipIt` makes no `os.Stat` call. -/
theorem zipIt_failedChecks (c : Config) (now : String) (archiveErr : Option String) :
    failedChecks (zipIt c now archiveErr).2 = 0 := by
  cases archiveErr <;> simp [zipIt, failedChecks]

/-- The function `zipIt` is not cut off by fuel. -/
theorem zipIt_ne_outOfFuel (c : Config) (now : String) (archiveErr : Option String) :
    (zipIt c now archiveErr).1 ≠ Outcome.outOfFuel := by
  cases archiveErr <;> simp [zipIt]

/-- The function `shipIt` makes no `os.Stat` call. -/
theorem shipIt_failedChecks (c : Config) (s : Storage) (filename : String) :
    failedChecks (shipIt c s filename).2 = 0 := by
  obtain ⟨se, oe, ur⟩ := s
  cases se <;> cases oe <;> cases ur <;> simp [shipIt, failedChecks]

/-- The function `shipIt` returns or panics. -/
theorem shipIt_outcome (c : Config) (s : Storage) (filename : String) :
    (shipIt c s filename).1 = Outcome.panicked ∨ ∃ err, (shipIt c s filename).1 = Outcome.returned err := by
  obtain ⟨se, oe, ur⟩ := s
  cases se <;> cases oe <;> cases ur <;> simp [shipIt]

/-- The function `cleanUp` makes no `os.Stat` call. -/
theorem cleanUp_failedChecks (r : String → Option Node) (c : Config) (filePath : String)
    (fs : FileSystem) : failedChecks (cleanUp r c filePath fs).1 = 0 := by
  unfold cleanUp
  simp only [failedChecks_append]
  cases (osRemove r fs filePath).1 <;>
    cases (osRemoveAll r (osRemove r fs filePath).2 c.exportPath).1 <;> simp [failedChecks]

/-- The packaging stage when archiving succeeds and `shipIt` returns. -/
theorem packageShipClean_returned (c : Config) (w : World) (b : Backoff) (tr ts : List Event)
    (err : Option String) (hzip : w.archiveErr = none)
    (hship : shipIt c w.storage (archiveName c w.now) = (Outcome.returned err, ts)) :
    packageShipClean c w b tr =
      { outcome := Outcome.returned (),
        trace := tr ++ [Event.archive [c.exportPath] (archiveName c w.now)] ++ ts ++ uploadReport err
          ++ (cleanUp w.resolve c (archiveName c w.now)
                (w.fs.create w.resolve (archiveName c w.now))).1
          ++ [Event.printed "SUCCESS"],
        fs := (cleanUp w.resolve c (archiveName c w.now)
                (w.fs.create w.resolve (archiveName c w.now))).2 } := by
  unfold archiveName at hship
  unfold packageShipClean
  simp only [zipIt, hzip, hship]
  cases err <;> rfl

/-- The packaging stage is never cut off by fuel and makes no `os.Stat` call. -/
theorem packageShipClean_bounded (c : Config) (w : World) (b : Backoff) (tr : List Event) :
    (packageShipClean c w b tr).outcome ≠ Outcome.outOfFuel ∧
    failedChecks (packageShipClean c w b tr).trace = failedChecks tr := by
  cases hzip : w.archiveErr with
  | some e =>
    simp [packageShipClean, zipIt, hzip, failedChecks_append]
    simp [failedChecks]
  | none =>
    rcases hs : shipIt c w.storage (archiveName c w.now) with ⟨o, ts⟩
    have hts : failedChecks ts = 0 := by
      have := shipIt_failedChecks c w.storage (archiveName c w.now)
      rw [hs] at this
      exact this
    rcases shipIt_outcome c w.storage (archiveName c w.now) with hp | ⟨err, hr⟩
    · rw [hs] at hp
      simp only at hp
      subst hp
      unfold archiveName at hs
      simp only [packageShipClean, zipIt, hzip, hs, failedChecks_append, hts]
      refine ⟨by simp, ?_⟩
      simp [failedChecks]
    · rw [hs] at hr
      simp only at hr
      subst hr
      rw [packageShipClean_returned c w b tr ts err hzip hs]
      refine ⟨by simp, ?_⟩
      simp only [failedChecks_append, hts, cleanUp_failedChecks]
      cases err <;> simp [uploadReport, failedChecks]

/-- C4: for every sequence of existence-check outcomes (the function
`w.notExist` on all of the naturals), and for any positive fuel, a run of
`Export` is not cut off: it ends after at most one failed check, either because
the wait loop saw the directory and left, or because it gave up. -/
theorem Export_wait_bounded (c : Config) (w : World) (fuel : Nat) :
    (Export c w (fuel + 1)).outcome ≠ Outcome.outOfFuel ∧
    failedChecks (Export c w (fuel + 1)).trace ≤ 1 ∧
    Export c w (fuel + 1) = Export c w 1 := by
  have hreq := requestExport_failedChecks c w.response
  unfold Export
  rcases hr : requestExport c w.response with ⟨o, tr⟩
  rw [hr] at hreq
  simp only at hreq
  cases o with
  | returned success =>
    cases success with
    | false => simp [hreq]
    | true =>
      simp only [if_true]
      unfold waitLoop
      cases hne : w.notExist 0 with
      | true =>
        simp [Backoff.Duration, Backoff.Attempt, failedChecks_append, hreq]
        simp [failedChecks]
      | false =>
        have hp := packageShipClean_bounded c w { attempt := 0, max := fiveMinutes }
          (tr ++ [Event.stat c.exportPath false])
        simp only [Bool.false_eq_true, if_false]
        refine ⟨hp.1, ?_, trivial⟩
        rw [hp.2, failedChecks_append, hreq]
        simp [failedChecks]
  | exited code => simp [hreq]
  | panicked => simp [hreq]
  | outOfFuel =>
    exfalso
    have : (requestExport c w.response).1 ≠ Outcome.outOfFuel := by
      unfold requestExport
      cases w.response with
      | none => simp
      | some r =>
        simp only
        split
        · cases r.body with
          | none => simp
          | some b =>
            simp only
            split <;> simp
        · simp
    rw [hr] at this
    exact this rfl

/-- C2, evaluated on the code: the export is acknowledged, the landing directory
is absent on the first two checks and present on the third. The run makes one
check only, then ends the process with `os.Exit(0)`; the archiver is never
called. -/
theorem Export_gives_up_after_first_miss :
    (Export sampleConfig (sampleWorld (fun i => decide (i < 2)) (Except.ok "s3://loc")) 10).outcome
      = Outcome.exited 0 ∧
    reachedPackaging
      (Export sampleConfig (sampleWorld (fun i => decide (i < 2)) (Except.ok "s3://loc")) 10).trace
      = false ∧
    failedChecks
      (Export sampleConfig (sampleWorld (fun i => decide (i < 2)) (Except.ok "s3://loc")) 10).trace
      = 1 := by
  decide

/-- C10, evaluated on the code: the export is acknowledged and the landing
directory never appears. The wait loop gives up, logs "NO SUCCESS  after 10 try"
and ends the process with exit status 0. -/
theorem Export_give_up_exit_status_zero :
    (Export sampleConfig (sampleWorld (fun _ => true) (Except.ok "s3://loc")) 10).outcome
      = Outcome.exited 0 ∧
    (Export sampleConfig (sampleWorld (fun _ => true) (Except.ok "s3://loc")) 10).trace.getLast?
      = some (Event.logged "NO SUCCESS  after 10 try") := by
  decide

/-! ## C9: the report after a failed upload -/

/-- C9, evaluated on the code: the export is acknowledged, the landing directory
is there, archiving works and `shipIt` returns an upload error. The run returns
normally, prints the upload failure, and then prints "SUCCESS". -/
theorem Export_upload_error_prints_success :
    (shipIt sampleConfig
        (sampleWorld (fun _ => false) (Except.error "AccessDenied")).storage
        (archiveName sampleConfig "2020-01-02T03:04:05Z")).1
      = Outcome.returned (some "failed to upload file, AccessDenied") ∧
    (Export sampleConfig (sampleWorld (fun _ => false) (Except.error "AccessDenied")) 10).outcome
      = Outcome.returned () ∧
    Event.printed "Failed to uploadfailed to upload file, AccessDenied" ∈
      (Export sampleConfig (sampleWorld (fun _ => false) (Except.error "AccessDenied")) 10).trace ∧
    (Export sampleConfig (sampleWorld (fun _ => false) (Except.error "AccessDenied")) 10).trace.getLast?
      = some (Event.printed "SUCCESS") := by
  decide

/-! ## C7: DownloadFile -/

/-- C7, evaluated on the code: whenever the file is created and downloaded and
`archiver.Unarchive` returns an error, `DownloadFile` returns the extraction
path "./data/exports/" as if unpacking had worked. -/
theorem DownloadFile_ignores_unarchive_error (c : Config) (e fileName : String) :
    (DownloadFile c { createErr := none, downloadErr := none, unarchiveErr := some e } fileName).1
      = Outcome.returned "./data/exports/" := by
  rfl

/-- A failed download does end the process with status 1. -/
theorem DownloadFile_download_error (c : Config) (e fileName : String) (u : Option String) :
    (DownloadFile c { createErr := none, downloadErr := some e, unarchiveErr := u } fileName).1
      = Outcome.exited 1 := by
  rfl

/-! ## C6: getFiles -/

/-- C6, evaluated on the code: a walked path that contains "gz" and no dot,
here "data/exports/gz", makes `getFiles` panic: `strings.Split` gives one piece
and the index `len - 2` is -1. -/
theorem getFiles_panics_without_dot :
    stringsSplitDot "data/exports/gz" = ["data/exports/gz"] ∧
    getFiles ["data/exports/a.rdf.gz", "data/exports/gz"] = Outcome.panicked := by
  decide

/-- The walk over paths in which every path with the marker has a dot. -/
theorem walkFiles_dotted (walked : List String)
    (h : ∀ p ∈ walked, stringsContains p "gz" = true → secondToLast p ≠ none)
    (acc : List String × List String) :
    walkFiles acc walked =
      some (acc.1 ++ walked.filter (hasKind "rdf"), acc.2 ++ walked.filter (hasKind "schema")) := by
  induction walked generalizing acc with
  | nil => simp [walkFiles]
  | cons p rest ih =>
    have hrest : ∀ q ∈ rest, stringsContains q "gz" = true → secondToLast q ≠ none :=
      fun q hq => h q (List.mem_cons_of_mem _ hq)
    have hp := h p (List.mem_cons_self _ _)
    unfold walkFiles
    by_cases hgz : stringsContains p "gz" = true
    · obtain ⟨piece, hpiece⟩ := Option.ne_none_iff_exists.1 (hp hgz)
      have hpiece2 : secondToLast p = some piece := hpiece.symm
      have hidx : goIndex (stringsSplitDot p) ((stringsSplitDot p).length - 2) = some piece :=
        hpiece2
      by_cases hr : piece = "rdf"
      · subst hr
        simp [classify, hgz, hidx, ih hrest, hasKind, hpiece2, List.filter_cons]
      · by_cases hs : piece = "schema"
        · subst hs
          simp [classify, hgz, hidx, ih hrest, hasKind, hpiece2, List.filter_cons]
        · simp [classify, hgz, hidx, ih hrest, hasKind, hpiece2, List.filter_cons, hr, hs]
    · simp only [Bool.not_eq_true] at hgz
      simp [classify, hgz, ih hrest, hasKind, List.filter_cons]

/-- On walked paths in which every path containing "gz" has a dot, `getFiles`
returns the paths of kind "rdf" and the paths of kind "schema", in walk order. -/
theorem getFiles_dotted (walked : List String)
    (h : ∀ p ∈ walked, stringsContains p "gz" = true → secondToLast p ≠ none) :
    getFiles walked =
      Outcome.returned (walked.filter (hasKind "rdf"), walked.filter (hasKind "schema")) := by
  simp [getFiles, walkFiles_dotted walked h]

/-- The example of the specification: `a.rdf.gz`, `b.schema.gz`, `c.txt`. -/
theorem getFiles_example :
    getFiles ["a.rdf.gz", "b.schema.gz", "c.txt"]
      = Outcome.returned (["a.rdf.gz"], ["b.schema.gz"]) := by
  decide

/-! ## C8: Restore without a schema file -/

/-- C8: for every classification result whose schema-file list is empty,
whatever the data-file list, `Restore` ends abnormally (a panic or a non-zero
exit status) and the loader command is neither built nor started. -/
theorem Restore_aborts_without_schema (c : Config) (w : RestoreWorld) (rdfFiles : List String)
    (h : getFiles w.walked = Outcome.returned (rdfFiles, [])) :
    (Restore c w).outcome.isFailure = true ∧ noLoaderCommand (Restore c w).trace = true := by
  obtain ⟨se, bf, ⟨ce, de, ue⟩, walked, stdinErr, startErr⟩ := w
  simp only at h
  cases se with
  | some e => simp [Restore, Outcome.isFailure, noLoaderCommand]
  | none =>
    cases bf with
    | none => simp [Restore, Outcome.isFailure, noLoaderCommand]
    | some file =>
      cases ce with
      | some e => simp [Restore, DownloadFile, Outcome.isFailure, noLoaderCommand]
      | none =>
        cases de with
        | some e => simp [Restore, DownloadFile, Outcome.isFailure, noLoaderCommand]
        | none =>
          simp [Restore, DownloadFile, restoreFrom, h, goIndex, Outcome.isFailure,
            noLoaderCommand]

/-- C8 at a concrete run: one data file is found and no schema file. -/
theorem Restore_aborts_without_schema_witness :
    getFiles sampleRestoreWorld.walked = Outcome.returned (["data/exports/g01.rdf.gz"], []) ∧
    (Restore sampleConfig sampleRestoreWorld).outcome.isFailure = true ∧
    noLoaderCommand (Restore sampleConfig sampleRestoreWorld).trace = true :=
  ⟨by decide,
   Restore_aborts_without_schema sampleConfig sampleRestoreWorld ["data/exports/g01.rdf.gz"]
     (by decide)⟩

/-! ## C3: cleanUp after the upload -/

/-- Looking for an archiver call distributes over concatenation. -/
theorem reachedPackaging_append (a b : List Event) :
    reachedPackaging (a ++ b) = (reachedPackaging a || reachedPackaging b) := by
  simp [reachedPackaging, List.any_append]

/-- The function `requestExport` does not call the archiver. -/
theorem requestExport_not_packaging (c : Config) (resp : Option Response) :
    reachedPackaging (requestExport c resp).2 = false := by
  unfold requestExport
  cases resp with
  | none => simp [reachedPackaging]
  | some r =>
    simp only
    split
    · cases r.body with
      | none => simp [reachedPackaging]
      | some b =>
        simp only
        split <;> simp [reachedPackaging]
    · simp [reachedPackaging]

/-- A run of `Export` whose trace has an archiver call ran lines 153-161. -/
theorem Export_reached_packaging (c : Config) (w : World) (fuel : Nat)
    (h : reachedPackaging (Export c w fuel).trace = true) :
    ∃ b tr, Export c w fuel = packageShipClean c w b tr := by
  have hreq := requestExport_not_packaging c w.response
  unfold Export at h ⊢
  rcases hr : requestExport c w.response with ⟨o, tr⟩
  rw [hr] at hreq h
  simp only at hreq h
  cases o with
  | returned success =>
    cases success with
    | false => simp [hreq] at h
    | true =>
      simp only [if_true] at h ⊢
      cases fuel with
      | zero => simp [waitLoop, hreq] at h
      | succ n =>
        unfold waitLoop at h ⊢
        cases hne : w.notExist 0 with
        | true =>
          simp [hne, Backoff.Duration, Backoff.Attempt, reachedPackaging_append, hreq] at h
          simp [reachedPackaging] at h
        | false =>
          simp only [Bool.false_eq_true, if_false]
          exact ⟨_, _, rfl⟩
  | exited code => simp [hreq] at h
  | panicked => simp [hreq] at h
  | outOfFuel => simp [hreq] at h

/-- After a successful `os.Remove` the name denotes nothing that exists. -/
theorem osRemove_ok (r : String → Option Node) (fs : FileSystem) (name : String)
    (h : (osRemove r fs name).1 = none) :
    (osRemove r fs name).2.pathExists r name = false := by
  unfold osRemove at h ⊢
  split at h
  · simp at h
  · rename_i h0
    simp only [h0]
    cases hl : lookup r name with
    | none => simp [hl] at h
    | some n =>
      simp only [hl] at h ⊢
      split at h
      · simp at h
      · split at h
        · simp at h
        · split at h
          · simp at h
          · rename_i h1 h2 h3
            simp only [h1, h2, h3]
            simp [FileSystem.pathExists, hl]

/-- The call `os.RemoveAll` creates nothing. -/
theorem osRemoveAll_absent (r : String → Option Node) (fs : FileSystem) (path : String)
    (n : Node) (h : n ∉ fs.entries) : n ∉ (osRemoveAll r fs path).2.entries := by
  unfold osRemoveAll
  split
  · exact h
  · split
    · exact h
    · cases lookup r path with
      | none => exact h
      | some root =>
        simp only
        split <;> exact fun hm => h (List.mem_filter.1 hm).1

/-- After a successful `os.RemoveAll` no node of the tree exists. -/
theorem osRemoveAll_ok (r : String → Option Node) (fs : FileSystem) (path : String)
    (h : (osRemoveAll r fs path).1 = none) (root n : Node)
    (hroot : lookup r path = some root) (hn : isUnder root n = true) :
    n ∉ (osRemoveAll r fs path).2.entries := by
  unfold osRemoveAll at h ⊢
  split at h
  · rename_i h0
    simp [lookup, h0] at hroot
  · split at h
    · simp at h
    · rename_i h0 h1
      simp only [h0, h1, hroot] at h ⊢
      split at h
      · simp at h
      · rename_i h2
        simp only [h2]
        intro hm
        have hm2 := List.mem_filter.1 hm
        have h3 : ∀ m ∈ fs.entries, (isUnder root m && fs.locked.contains m) = false := by
          simpa using h2
        have h4 : fs.entries.any (fun m => isUnder n m && fs.locked.contains m) = false := by
          rw [List.any_eq_false]
          intro m hmem hc
          have hc2 : isUnder n m = true ∧ fs.locked.contains m = true := by simpa using hc
          have hrm : isUnder root m = true := by
            have e1 : root <+: n := by simpa [isUnder] using hn
            have e2 : n <+: m := by simpa [isUnder] using hc2.1
            simpa [isUnder] using e1.trans e2
          have := h3 m hmem
          rw [hrm, hc2.2] at this
          simp at this
        have h5 := hm2.2
        simp only [hn, h4] at h5
        simp at h5

/-- What `cleanUp` does: one `os.Remove` of the archive, then one `os.RemoveAll`
of the export path, each with the result the file system gives. -/
theorem cleanUp_calls (r : String → Option Node) (c : Config) (filePath : String)
    (fs : FileSystem) :
    Event.osRemove filePath (osRemove r fs filePath).1 ∈ (cleanUp r c filePath fs).1 ∧
    Event.osRemoveAll c.exportPath (osRemoveAll r (osRemove r fs filePath).2 c.exportPath).1
      ∈ (cleanUp r c filePath fs).1 ∧
    (cleanUp r c filePath fs).2 = (osRemoveAll r (osRemove r fs filePath).2 c.exportPath).2 := by
  unfold cleanUp
  cases h1 : (osRemove r fs filePath).1 <;>
    cases h2 : (osRemoveAll r (osRemove r fs filePath).2 c.exportPath).1 <;> simp [h1, h2]

/-- C3: for every run of `Export` that reaches packaging, in which `zipIt`
returns an archive name and `shipIt` returns (nil or an error), `cleanUp` is
executed on the file system packaging left: the trace holds the `os.Remove` of
the archive and the `os.RemoveAll` of the export path with the results these
calls have on that state, and the run ends in the state they leave. On a state
where both removals succeed (return nil), the archive name denotes nothing
that exists after the run, the export path denotes nothing that exists, and no
node of the export directory tree exists. -/
theorem Export_cleanUp_after_upload (c : Config) (w : World) (fuel : Nat)
    (name : String) (zerr err : Option String) (ts : List Event)
    (hreach : reachedPackaging (Export c w fuel).trace = true)
    (hzip : (zipIt c w.now w.archiveErr).1 = Outcome.returned (name, zerr))
    (hship : shipIt c w.storage name = (Outcome.returned err, ts)) :
    Event.osRemove name (osRemove w.resolve (w.fs.create w.resolve name) name).1
      ∈ (Export c w fuel).trace ∧
    Event.osRemoveAll c.exportPath
        (osRemoveAll w.resolve (osRemove w.resolve (w.fs.create w.resolve name) name).2
          c.exportPath).1
      ∈ (Export c w fuel).trace ∧
    (Export c w fuel).fs =
      (osRemoveAll w.resolve (osRemove w.resolve (w.fs.create w.resolve name) name).2
        c.exportPath).2 ∧
    ((osRemove w.resolve (w.fs.create w.resolve name) name).1 = none →
      (osRemoveAll w.resolve (osRemove w.resolve (w.fs.create w.resolve name) name).2
        c.exportPath).1 = none →
      (Export c w fuel).fs.pathExists w.resolve name = false ∧
      (Export c w fuel).fs.pathExists w.resolve c.exportPath = false ∧
      ∀ root n, lookup w.resolve c.exportPath = some root → isUnder root n = true →
        n ∉ (Export c w fuel).fs.entries) := by
  obtain ⟨b, tr, hE⟩ := Export_reached_packaging c w fuel hreach
  have hz : w.archiveErr = none ∧ name = archiveName c w.now := by
    cases ha : w.archiveErr with
    | some e => simp [zipIt, ha] at hzip
    | none =>
      simp [zipIt, ha] at hzip
      exact ⟨rfl, hzip.1.symm⟩
  obtain ⟨hz1, hz2⟩ := hz
  subst hz2
  rw [hE, packageShipClean_returned c w b tr ts err hz1 hship]
  obtain ⟨hc1, hc2, hc3⟩ := cleanUp_calls w.resolve c (archiveName c w.now)
    (w.fs.create w.resolve (archiveName c w.now))
  refine ⟨?_, ?_, hc3, ?_⟩
  · simp only [List.mem_append]
    exact Or.inl (Or.inr hc1)
  · simp only [List.mem_append]
    exact Or.inl (Or.inr hc2)
  · intro h1 h2
    simp only [hc3]
    have hall := fun root n => osRemoveAll_ok w.resolve
      (osRemove w.resolve (w.fs.create w.resolve (archiveName c w.now)) (archiveName c w.now)).2
      c.exportPath h2 root n
    refine ⟨?_, ?_, hall⟩
    · have h3 := osRemove_ok _ _ _ h1
      unfold FileSystem.pathExists at h3 ⊢
      cases hl : lookup w.resolve (archiveName c w.now) with
      | none => rfl
      | some n =>
        simp only [hl] at h3 ⊢
        have h4 : n ∉ (osRemove w.resolve (w.fs.create w.resolve (archiveName c w.now))
            (archiveName c w.now)).2.entries := by simpa using h3
        simpa using osRemoveAll_absent w.resolve _ c.exportPath n h4
    · unfold FileSystem.pathExists
      cases hl : lookup w.resolve c.exportPath with
      | none => rfl
      | some root =>
        simp only
        have h4 := hall root root hl (by simp [isUnder])
        simpa using h4

/-- C3 at a concrete run in which the upload fails: both removals return nil,
the run ends with the unrelated file only, and the archive and the export tree
are gone. -/
theorem Export_cleanUp_after_upload_witness :
    (osRemove (resolveIn [["export"]])
        (sampleFS.create (resolveIn [["export"]]) (archiveName sampleConfig "2020-01-02T03:04:05Z"))
        (archiveName sampleConfig "2020-01-02T03:04:05Z")).1 = none ∧
    (osRemoveAll (resolveIn [["export"]])
        (osRemove (resolveIn [["export"]])
          (sampleFS.create (resolveIn [["export"]])
            (archiveName sampleConfig "2020-01-02T03:04:05Z"))
          (archiveName sampleConfig "2020-01-02T03:04:05Z")).2 "./export").1 = none ∧
    (Export sampleConfig (sampleWorld (fun _ => false) (Except.error "AccessDenied")) 1).fs
      = { entries := [["notes.txt"]], locked := [] } ∧
    (Export sampleConfig (sampleWorld (fun _ => false) (Except.error "AccessDenied")) 1).fs.pathExists
      (resolveIn [["export"]]) (archiveName sampleConfig "2020-01-02T03:04:05Z") = false ∧
    (Export sampleConfig (sampleWorld (fun _ => false) (Except.error "AccessDenied")) 1).fs.pathExists
      (resolveIn [["export"]]) "./export" = false ∧
    ∀ root n, lookup (resolveIn [["export"]]) "./export" = some root → isUnder root n = true →
      n ∉ (Export sampleConfig
        (sampleWorld (fun _ => false) (Except.error "AccessDenied")) 1).fs.entries :=
  have h := Export_cleanUp_after_upload sampleConfig
    (sampleWorld (fun _ => false) (Except.error "AccessDenied")) 1
    (archiveName sampleConfig "2020-01-02T03:04:05Z") none
    (some "failed to upload file, AccessDenied")
    [Event.upload "dgraph-backup" (archiveName sampleConfig "2020-01-02T03:04:05Z")]
    (by decide) (by decide) (by decide)
  ⟨by decide, by decide, by decide, (h.2.2.2 (by decide) (by decide)).1,
    (h.2.2.2 (by decide) (by decide)).2.1, (h.2.2.2 (by decide) (by decide)).2.2⟩

end DgraphBackup
